import Mathlib

set_option maxHeartbeats 1000000

/-!
Shallow embedding of the CineSuggestAIFree query-normalization and caching
layer (src/services/tmdbService.ts and src/services/aiService.ts).

External effects are modelled as oracle parameters:
- fetch against the metadata API becomes a function from the endpoint string
  to an Except value (error models both network failure and non-OK status,
  which the Transport wrapper collapses into one thrown error);
- the text-generation provider call becomes a FetchOutcome value;
- JSON.parse of the provider reply becomes a parameter of type
  String to Option AISearchData (none models a parse exception).
Mutable module-level caches become explicit state threaded through the
functions, and each stateful function also returns the list of network
calls it issued, so that claims about call counts are statable.
-/

namespace CineSuggest

/-- Media category: the movie/tv union type used throughout tmdbService.ts. -/
inductive MediaType where
  | movie
  | tv
deriving DecidableEq

/-- String form of a media category, as interpolated into endpoint URLs. -/
def MediaType.str : MediaType → String
  | .movie => "movie"
  | .tv => "tv"

/-- Removal of leading and trailing whitespace from a character list, the
semantics of String.prototype.trim restricted to the whitespace characters
relevant here. -/
def trimChars (l : List Char) : List Char :=
  ((l.dropWhile Char.isWhitespace).reverse.dropWhile Char.isWhitespace).reverse

/-- Normalization applied by tmdbService.ts to keyword phrases and genre
names: k.toLowerCase().trim() — lower-case each character first, then trim.
Implemented on the character list so that it evaluates by kernel
reduction. -/
def normalizeKey (s : String) : String :=
  String.mk (trimChars (s.data.map Char.toLower))

/-- Outcome of one provider HTTP exchange in aiService.ts, as observed by the
code after await fetch / await response.json():
- networkError: fetch or body parsing threw;
- httpError: response.ok was false (non-2xx status);
- reply c: a successful response whose choices[0]?.message?.content field
  is c (none when the optional chain yields undefined). -/
inductive FetchOutcome where
  | networkError
  | httpError (status : Nat)
  | reply (content : Option String)
deriving DecidableEq

/-- Result shape of AI search-term extraction (AISearchData in types.ts):
every field is optional in the JSON the provider returns. -/
structure AISearchData where
  media_type : Option String
  genres : Option (List String)
  keywords : Option (List String)
  year : Option Nat
  search_query : Option String
deriving DecidableEq

/-- Fallback criteria object built by the catch branch of
getSearchTermsFromAI: only search_query is populated, with the raw query. -/
def rawQueryFallback (query : String) : AISearchData :=
  ⟨none, none, none, none, some query⟩

/-- Embedding of getSearchTermsFromAI (src/services/aiService.ts, lines
39-77). The provider call is the oracle applied to the user query; parse
models JSON.parse on the reply content (none = parse exception). Every
failure path — thrown network error, non-OK status, missing or empty
content (JS falsy check), unparsable JSON — is caught and degrades to the
raw-query fallback; the function is total, so no error escapes. -/
def getSearchTermsFromAI (oracle : String → FetchOutcome)
    (parse : String → Option AISearchData) (query : String) : AISearchData :=
  match oracle query with
  | .networkError => rawQueryFallback query
  | .httpError _ => rawQueryFallback query
  | .reply none => rawQueryFallback query
  | .reply (some s) =>
    if s = "" then rawQueryFallback query
    else
      match parse s with
      | none => rawQueryFallback query
      | some data => data

/-- Roles of chat history entries (ChatMessage in types.ts): user, ai, or
error (error entries are UI artifacts filtered out before sending). -/
inductive ChatRole where
  | user
  | ai
  | error
deriving DecidableEq

/-- One chat history entry. -/
structure ChatMessage where
  role : ChatRole
  content : String
deriving DecidableEq

/-- History preprocessing in getChatResponseFromAI: drop error-role entries,
then map each entry to a provider message whose role string is assistant
for ai entries and user otherwise. -/
def toProviderMessages (history : List ChatMessage) : List (String × String) :=
  (history.filter (fun m => m.role ≠ ChatRole.error)).map
    (fun m => ((if m.role = ChatRole.ai then "assistant" else "user"), m.content))

/-- Embedding of getChatResponseFromAI (src/services/aiService.ts, lines
81-123). The oracle receives the preprocessed messages. A missing or empty
content field triggers the inner throw, which the catch re-wraps — like
every other failure — into the single thrown error the caller sees; no
fallback text is ever returned. -/
def getChatResponseFromAI (oracle : List (String × String) → FetchOutcome)
    (history : List ChatMessage) : Except String String :=
  match oracle (toProviderMessages history) with
  | .networkError => .error "Failed to get chat response from AI."
  | .httpError _ => .error "Failed to get chat response from AI."
  | .reply none => .error "Failed to get chat response from AI."
  | .reply (some content) =>
    if content = "" then .error "Failed to get chat response from AI."
    else .ok content

/-- Embedding of getSortByValue (src/services/tmdbService.ts, lines 22-30).
The source switches on the sort option with a default case, so we model the
option as a raw string: release_date is category-dependent, rating maps to
vote_average.desc, and everything else (popularity included) falls through
to popularity.desc. An absent option never reaches this function: the
discoverMedia parameter defaults to popularity at the call boundary. -/
def getSortByValue (sortOption : String) (mediaType : MediaType) : String :=
  if sortOption = "release_date" then
    match mediaType with
    | .movie => "primary_release_date.desc"
    | .tv => "first_air_date.desc"
  else if sortOption = "rating" then "vote_average.desc"
  else "popularity.desc"

/-- Fields of a metadata-API result item that the filtering logic inspects
(TMDbResult in types.ts, restricted to the observed fields): media_type may
be absent or any string (multi-search also returns person items), and
poster_path may be null (none) or a string. -/
structure TMDbResult where
  id : Nat
  media_type : Option String
  poster_path : Option String
deriving DecidableEq

/-- JS truthiness of the poster_path field: null/undefined and the empty
string are falsy. -/
def posterTruthy : Option String → Bool
  | none => false
  | some s => s ≠ ""

/-- Predicate of the filter shared by searchMedia and getTrending:
(result.media_type === movie || result.media_type === tv) &&
result.poster_path. -/
def keepResult (r : TMDbResult) : Bool :=
  (r.media_type = some "movie" || r.media_type = some "tv") && posterTruthy r.poster_path

/-- Update of the media_type field, as done by the spread
(...r, media_type: type) in discoverMedia and the detail endpoints. -/
def setMediaType (r : TMDbResult) (t : MediaType) : TMDbResult :=
  ⟨r.id, some t.str, r.poster_path⟩

/-- Embedding of searchMedia (src/services/tmdbService.ts, lines 32-36).
The oracle stands for fetchFromTMDb on the built endpoint (URL escaping of
the query is irrelevant to the claims and not modelled); error covers both
network failure and non-OK status. An empty query short-circuits to an
empty list (JS falsy check on the string). -/
def searchMedia (oracle : String → Except Unit (List TMDbResult))
    (query : String) (page : Nat) (language : String) :
    Except Unit (List TMDbResult) :=
  if query = "" then .ok []
  else
    match oracle ("search/multi?query=" ++ query ++ "&page=" ++ toString page
        ++ "&include_adult=false&language=" ++ language) with
    | .error e => .error e
    | .ok data => .ok (data.filter keepResult)

/-- Embedding of getTrending (src/services/tmdbService.ts, lines 38-41). -/
def getTrending (oracle : String → Except Unit (List TMDbResult))
    (page : Nat) (language : String) : Except Unit (List TMDbResult) :=
  match oracle ("trending/all/week?page=" ++ toString page ++ "&language=" ++ language) with
  | .error e => .error e
  | .ok data => .ok (data.filter keepResult)

/-- Accumulator worker for first-occurrence deduplication: keeps each
element not yet seen, in input order. -/
def jsSetDedupAux {α : Type} [DecidableEq α] (seen : List α) : List α → List α
  | [] => []
  | x :: xs =>
    if x ∈ seen then jsSetDedupAux seen xs
    else x :: jsSetDedupAux (x :: seen) xs

/-- First-occurrence deduplication, the semantics of the JS idiom
[...new Set(xs)] used in getKeywordIds. -/
def jsSetDedup {α : Type} [DecidableEq α] (l : List α) : List α :=
  jsSetDedupAux [] l

/-- Keyword cache state (the module-level keywordCache Map in
tmdbService.ts), observed only through has/get/set by key, hence modelled
as a partial map from normalized phrase to id. -/
def KWCache : Type := String → Option Nat

/-- Empty keyword cache (new Map()). -/
def KWCache.empty : KWCache := fun _ => none

/-- Cache insertion, the semantics of keywordCache.set(k, v). -/
def KWCache.set (c : KWCache) (k : String) (v : Nat) : KWCache :=
  fun s => if s = k then some v else c s

/-- All-or-nothing join of one fetch per keyword, the semantics of
await Promise.all(keywordsToFetch.map(fetch...)): the first rejection
rejects the whole batch, otherwise the list of responses in input order. -/
def awaitAll (oracle : String → Except Unit (List Nat)) :
    List String → Except Unit (List (List Nat))
  | [] => .ok []
  | k :: ks =>
    match oracle k with
    | .error e => .error e
    | .ok r =>
      match awaitAll oracle ks with
      | .error e => .error e
      | .ok rs => .ok (r :: rs)

/-- Result of a getKeywordIds call: the returned ids (or the propagated
transport error), the keyword cache after the call, and the list of
keyword-search network calls issued (one per fetched phrase). -/
structure KWOut where
  result : Except Unit (List Nat)
  cache : KWCache
  calls : List String

/-- Local uniqueKeywords of getKeywordIds: normalized inputs, first
occurrence kept — [...new Set(keywords.map(k => k.toLowerCase().trim()))]. -/
def uniqueKeywordsOf (keywords : List String) : List String :=
  jsSetDedup (keywords.map normalizeKey)

/-- Local cachedIds of getKeywordIds right after the partition loop: the
cached id of each unique keyword present in the cache, in order. -/
def cachedIdsOf (cache : KWCache) (uniq : List String) : List Nat :=
  uniq.filterMap (fun k => cache k)

/-- Local keywordsToFetch of getKeywordIds: the unique keywords missing
from the cache, in order. -/
def keywordsToFetchOf (cache : KWCache) (uniq : List String) : List String :=
  uniq.filter (fun k => (cache k).isNone)

/-- Pairs inserted by the forEach over keyword responses: for each fetched
keyword whose response is non-empty, the keyword with the first returned
id; empty-response keywords contribute nothing. -/
def newPairsOf (toFetch : List String) (responses : List (List Nat)) :
    List (String × Nat) :=
  (toFetch.zip responses).filterMap
    (fun p => (p.2.head?).map (fun id => (p.1, id)))

/-- Cache after the forEach: every new pair inserted via set. -/
def insertPairs (cache : KWCache) (pairs : List (String × Nat)) : KWCache :=
  pairs.foldl (fun m p => m.set p.1 p.2) cache

/-- Embedding of getKeywordIds (src/services/tmdbService.ts, lines 45-77).
The oracle maps a normalized phrase to the id list of its keyword-search
response (error = transport failure). Input phrases are normalized and
deduplicated, partitioned into cached and to-fetch, the uncached ones are
fetched in one all-or-nothing batch, each non-empty response contributes
its first id and is inserted into the cache, and the union of cached and
newly resolved ids is returned deduplicated. On batch failure the error
propagates and the cache — whose insertions all happen after the await —
is left untouched. The source locals are the named defs above. -/
def getKeywordIds (oracle : String → Except Unit (List Nat))
    (keywords : List String) (cache : KWCache) : KWOut :=
  if keywords = [] then ⟨.ok [], cache, []⟩
  else
    match awaitAll oracle (keywordsToFetchOf cache (uniqueKeywordsOf keywords)) with
    | .error e =>
      ⟨.error e, cache, keywordsToFetchOf cache (uniqueKeywordsOf keywords)⟩
    | .ok responses =>
      ⟨.ok (jsSetDedup (cachedIdsOf cache (uniqueKeywordsOf keywords)
          ++ (newPairsOf (keywordsToFetchOf cache (uniqueKeywordsOf keywords))
              responses).map (fun p => p.2))),
        insertPairs cache
          (newPairsOf (keywordsToFetchOf cache (uniqueKeywordsOf keywords)) responses),
        keywordsToFetchOf cache (uniqueKeywordsOf keywords)⟩

/-- One genre entry (Genre in types.ts). -/
structure Genre where
  id : Nat
  name : String
deriving DecidableEq

/-- Genre cache state (the module-level genreCache object): one list per
category, initialized empty. -/
structure GenreCache where
  movie : List Genre
  tv : List Genre

/-- Field access genreCache[type]. -/
def GenreCache.get (c : GenreCache) : MediaType → List Genre
  | .movie => c.movie
  | .tv => c.tv

/-- Field assignment genreCache[type] = gs. -/
def GenreCache.put (c : GenreCache) (t : MediaType) (gs : List Genre) : GenreCache :=
  match t with
  | .movie => ⟨gs, c.tv⟩
  | .tv => ⟨c.movie, gs⟩

/-- Result of a genre operation: value or propagated error, cache after the
call, and the categories of the genre-list network calls issued. -/
structure GLOut where
  result : Except Unit (List Genre)
  cache : GenreCache
  calls : List MediaType

/-- Embedding of getGenreList (src/services/tmdbService.ts, lines 82-89).
The oracle maps a category to the genres array of the genre-list endpoint
response. A non-empty cached list is served without a network call;
otherwise — including when a previous fetch stored an empty list — the
list is fetched and stored. -/
def getGenreList (oracle : MediaType → Except Unit (List Genre))
    (type : MediaType) (cache : GenreCache) : GLOut :=
  if (cache.get type).length > 0 then ⟨.ok (cache.get type), cache, []⟩
  else
    match oracle type with
    | .error e => ⟨.error e, cache, [type]⟩
    | .ok gs => ⟨.ok gs, cache.put type gs, [type]⟩

/-- Result of getGenreIds: ids or propagated error, cache, calls issued. -/
structure GIOut where
  result : Except Unit (List Nat)
  cache : GenreCache
  calls : List MediaType

/-- Name-to-id filtering step of getGenreIds: keep the genres whose
lower-cased trimmed name occurs among the lower-cased trimmed input names
(lowerCaseGenreNames in the source), and project their ids. -/
def genreIdsFromList (genreNames : List String) (genreList : List Genre) : List Nat :=
  (genreList.filter
      (fun g => (genreNames.map normalizeKey).contains (normalizeKey g.name))).map
    (fun g => g.id)

/-- Embedding of getGenreIds (src/services/tmdbService.ts, lines 91-99):
empty name list short-circuits, otherwise the genre list for the category
is obtained (from cache or network, the local gl) and filtered by
case-insensitive trimmed exact match on name. -/
def getGenreIds (oracle : MediaType → Except Unit (List Genre))
    (genreNames : List String) (type : MediaType) (cache : GenreCache) : GIOut :=
  if genreNames = [] then ⟨.ok [], cache, []⟩
  else
    match getGenreList oracle type cache with
    | ⟨.error e, c2, calls⟩ => ⟨.error e, c2, calls⟩
    | ⟨.ok genreList, c2, calls⟩ =>
      ⟨.ok (genreIdsFromList genreNames genreList), c2, calls⟩

/-- Sequential driver for genre queries across the cache lifetime: runs a
list of getGenreIds requests, threading the cache, and concatenates the
network-call logs. Used to state per-category call-count claims. -/
def runGenreQueries (oracle : MediaType → Except Unit (List Genre)) :
    List (List String × MediaType) → GenreCache → GenreCache × List MediaType
  | [], cache => (cache, [])
  | q :: qs, cache =>
    ((runGenreQueries oracle qs (getGenreIds oracle q.1 q.2 cache).cache).1,
      (getGenreIds oracle q.1 q.2 cache).calls
        ++ (runGenreQueries oracle qs (getGenreIds oracle q.1 q.2 cache).cache).2)

/-- JS truthiness of the optional year parameter: undefined and 0 are
falsy. -/
def yearTruthy : Option Nat → Bool
  | none => false
  | some n => n ≠ 0

/-- Result of a discoverMedia call: results or propagated error, plus the
endpoints of the network calls issued. -/
structure DiscOut where
  result : Except Unit (List TMDbResult)
  calls : List String

/-- Embedding of discoverMedia (src/services/tmdbService.ts, lines
101-128). When both id lists are empty and the year is falsy, an empty
result is returned with no network call; otherwise the discovery endpoint
is built (sort mapping, optional with_genres / with_keywords / year
parameters) and fetched, and every returned item is tagged with the
requested category. -/
def discoverMedia (oracle : String → Except Unit (List TMDbResult))
    (type : MediaType) (genreIds : List Nat) (keywordIds : List Nat)
    (page : Nat) (sortOption : String) (language : String)
    (year : Option Nat) : DiscOut :=
  if genreIds.length = 0 && keywordIds.length = 0 && !yearTruthy year then
    ⟨.ok [], []⟩
  else
    let sortBy := getSortByValue sortOption type
    let ep0 := "discover/" ++ type.str ++ "?sort_by=" ++ sortBy ++ "&page="
      ++ toString page ++ "&include_adult=false"
    let ep1 := if genreIds.length > 0 then
        ep0 ++ "&with_genres=" ++ String.intercalate "," (genreIds.map toString)
      else ep0
    let ep2 := if keywordIds.length > 0 then
        ep1 ++ "&with_keywords=" ++ String.intercalate "," (keywordIds.map toString)
      else ep1
    let ep3 := if yearTruthy year then
        ep2 ++ "&" ++ (match type with
          | .movie => "primary_release_year"
          | .tv => "first_air_date_year") ++ "=" ++ toString (year.getD 0)
      else ep2
    let endpoint := ep3 ++ "&language=" ++ language
    match oracle endpoint with
    | .error e => ⟨.error e, [endpoint]⟩
    | .ok data => ⟨.ok (data.map (fun r => setMediaType r type)), [endpoint]⟩

/-! Supporting lemmas about the JS-idiom helpers. -/

theorem mem_jsSetDedupAux {α : Type} [DecidableEq α] (l : List α) :
    ∀ (seen : List α) (a : α), a ∈ jsSetDedupAux seen l ↔ a ∈ l ∧ a ∉ seen := by
  induction l with
  | nil => intro seen a; simp [jsSetDedupAux]
  | cons x xs ih =>
    intro seen a
    by_cases hx : x ∈ seen
    · rw [jsSetDedupAux, if_pos hx, ih]
      constructor
      · rintro ⟨ha, hs⟩; exact ⟨List.mem_cons_of_mem _ ha, hs⟩
      · rintro ⟨ha, hs⟩
        rcases List.mem_cons.mp ha with h | h
        · subst h; exact absurd hx hs
        · exact ⟨h, hs⟩
    · rw [jsSetDedupAux, if_neg hx]
      constructor
      · intro hmem
        rcases List.mem_cons.mp hmem with h | h
        · subst h; exact ⟨List.mem_cons_self _ _, hx⟩
        · obtain ⟨ha, hs⟩ := (ih _ a).mp h
          exact ⟨List.mem_cons_of_mem _ ha,
            fun hc => hs (List.mem_cons_of_mem _ hc)⟩
      · rintro ⟨ha, hs⟩
        by_cases hax : a = x
        · exact hax ▸ List.mem_cons_self _ _
        · rcases List.mem_cons.mp ha with h | h
          · exact absurd h hax
          · exact List.mem_cons_of_mem _ ((ih _ a).mpr
              ⟨h, fun hc => (List.mem_cons.mp hc).elim hax hs⟩)

theorem mem_jsSetDedup {α : Type} [DecidableEq α] {l : List α} {a : α} :
    a ∈ jsSetDedup l ↔ a ∈ l := by
  rw [jsSetDedup, mem_jsSetDedupAux]
  simp

theorem nodup_jsSetDedupAux {α : Type} [DecidableEq α] (l : List α) :
    ∀ seen, (jsSetDedupAux seen l).Nodup := by
  induction l with
  | nil => intro seen; simp [jsSetDedupAux]
  | cons x xs ih =>
    intro seen
    by_cases hx : x ∈ seen
    · rw [jsSetDedupAux, if_pos hx]; exact ih seen
    · rw [jsSetDedupAux, if_neg hx]
      refine List.nodup_cons.mpr ⟨?_, ih _⟩
      intro hmem
      obtain ⟨_, hns⟩ := (mem_jsSetDedupAux xs _ x).mp hmem
      exact hns (List.mem_cons_self x seen)

theorem nodup_jsSetDedup {α : Type} [DecidableEq α] (l : List α) :
    (jsSetDedup l).Nodup :=
  nodup_jsSetDedupAux l []

theorem length_jsSetDedupAux_le {α : Type} [DecidableEq α] (l : List α) :
    ∀ seen, (jsSetDedupAux seen l).length ≤ l.length := by
  induction l with
  | nil => intro seen; simp [jsSetDedupAux]
  | cons x xs ih =>
    intro seen
    by_cases hx : x ∈ seen
    · rw [jsSetDedupAux, if_pos hx]
      exact Nat.le_succ_of_le (ih seen)
    · rw [jsSetDedupAux, if_neg hx]
      simpa using Nat.succ_le_succ (ih (x :: seen))

theorem length_jsSetDedup_le {α : Type} [DecidableEq α] (l : List α) :
    (jsSetDedup l).length ≤ l.length :=
  length_jsSetDedupAux_le l []

theorem length_filterMap_add_filter_isNone {α β : Type} (f : α → Option β) (l : List α) :
    (l.filterMap f).length + (l.filter (fun a => (f a).isNone)).length = l.length := by
  induction l with
  | nil => simp
  | cons x xs ih =>
    cases hf : f x <;> simp [List.filterMap_cons, hf, List.filter_cons] <;> omega

/-! Supporting lemmas about the all-or-nothing batch join. -/

theorem awaitAll_ok_cons {oracle : String → Except Unit (List Nat)}
    {x : String} {xs : List String} {rs : List (List Nat)}
    (h : awaitAll oracle (x :: xs) = .ok rs) :
    ∃ r rs2, oracle x = .ok r ∧ awaitAll oracle xs = .ok rs2 ∧ rs = r :: rs2 := by
  rw [awaitAll] at h
  cases hx : oracle x with
  | error e => rw [hx] at h; exact absurd h (by simp)
  | ok r =>
    rw [hx] at h
    cases hr : awaitAll oracle xs with
    | error e => rw [hr] at h; exact absurd h (by simp)
    | ok rs2 =>
      rw [hr] at h
      simp only [Except.ok.injEq] at h
      exact ⟨r, rs2, rfl, rfl, h.symm⟩

theorem awaitAll_ok_oracle (oracle : String → Except Unit (List Nat)) :
    ∀ (l : List String) (rs : List (List Nat)), awaitAll oracle l = .ok rs →
      ∀ p ∈ l.zip rs, oracle p.1 = .ok p.2 := by
  intro l
  induction l with
  | nil => intro rs _ p hp; simp at hp
  | cons x xs ih =>
    intro rs h p hp
    obtain ⟨r, rs2, hx, hxs, hrs⟩ := awaitAll_ok_cons h
    subst hrs
    rcases List.mem_cons.mp hp with h1 | h1
    · subst h1; exact hx
    · exact ih rs2 hxs p h1

theorem awaitAll_error_of_mem (oracle : String → Except Unit (List Nat)) :
    ∀ (l : List String) (k : String) (e : Unit), k ∈ l → oracle k = .error e →
      ∃ e2, awaitAll oracle l = .error e2 := by
  intro l
  induction l with
  | nil => intro k e hk; simp at hk
  | cons x xs ih =>
    intro k e hk he
    rw [awaitAll]
    by_cases hx : ∃ ex, oracle x = .error ex
    · obtain ⟨ex, hx⟩ := hx
      exact ⟨ex, by rw [hx]⟩
    · cases hox : oracle x with
      | error ex => exact absurd ⟨ex, hox⟩ hx
      | ok r =>
        rcases List.mem_cons.mp hk with h1 | h1
        · subst h1; rw [hox] at he; exact absurd he (by simp)
        · obtain ⟨e2, h2⟩ := ih k e h1 he
          exact ⟨e2, by rw [h2]⟩

/-! Supporting lemmas about the keyword cache fold. -/

theorem insertPairs_isSome_preserve (pairs : List (String × Nat)) :
    ∀ (c : KWCache) (k : String), (c k).isSome →
      (insertPairs c pairs k).isSome := by
  induction pairs with
  | nil => intro c k h; exact h
  | cons p ps ih =>
    intro c k h
    unfold insertPairs at ih ⊢
    simp only [List.foldl_cons]
    apply ih
    unfold KWCache.set
    by_cases hk : k = p.1 <;> simp [hk, h]

theorem insertPairs_isSome_of_mem (pairs : List (String × Nat)) :
    ∀ (c : KWCache) (k : String), k ∈ pairs.map Prod.fst →
      (insertPairs c pairs k).isSome := by
  induction pairs with
  | nil => intro c k h; simp at h
  | cons p ps ih =>
    intro c k hk
    simp only [List.map_cons] at hk
    unfold insertPairs at ih ⊢
    simp only [List.foldl_cons]
    rcases List.mem_cons.mp hk with h | h
    · apply insertPairs_isSome_preserve
      unfold KWCache.set
      simp [h]
    · exact ih _ k h

/-- C1: for every input query, if the provider call fails — transport error,
non-OK status, missing or empty reply content, or a reply that does not
parse as JSON — getSearchTermsFromAI returns the criteria object whose only
populated field is search_query, holding the original input query. The
function is total (its codomain is AISearchData, not an error monad), so no
error ever reaches the caller. -/
theorem getSearchTermsFromAI_failure_fallback
    (oracle : String → FetchOutcome) (parse : String → Option AISearchData)
    (query : String)
    (h : oracle query = .networkError ∨ (∃ st, oracle query = .httpError st) ∨
         oracle query = .reply none ∨ oracle query = .reply (some "") ∨
         (∃ s, oracle query = .reply (some s) ∧ parse s = none)) :
    getSearchTermsFromAI oracle parse query = ⟨none, none, none, none, some query⟩ := by
  rcases h with h | ⟨st, h⟩ | h | h | ⟨s, h, hp⟩
  · unfold getSearchTermsFromAI rawQueryFallback; rw [h]
  · unfold getSearchTermsFromAI rawQueryFallback; rw [h]
  · unfold getSearchTermsFromAI rawQueryFallback; rw [h]
  · unfold getSearchTermsFromAI rawQueryFallback; rw [h]; simp
  · unfold getSearchTermsFromAI rawQueryFallback; rw [h]
    by_cases hs : s = ""
    · simp [hs]
    · simp [hs, hp]

/-- Witness for C1 at a concrete failing provider. -/
theorem getSearchTermsFromAI_failure_fallback_witness :
    getSearchTermsFromAI (fun _ => FetchOutcome.networkError) (fun _ => none)
      "a sad sci-fi movie" = ⟨none, none, none, none, some "a sad sci-fi movie"⟩ :=
  getSearchTermsFromAI_failure_fallback _ _ _ (Or.inl rfl)

/-- C2: whenever the genre-id list is empty, the keyword-id list is empty
and no year is supplied, discoverMedia returns an empty result list and
issues no network call, for every category, sort option, page and
language. -/
theorem discoverMedia_empty_guard
    (oracle : String → Except Unit (List TMDbResult)) (type : MediaType)
    (genreIds keywordIds : List Nat) (page : Nat) (sortOption language : String)
    (year : Option Nat)
    (hg : genreIds = []) (hk : keywordIds = []) (hy : year = none) :
    discoverMedia oracle type genreIds keywordIds page sortOption language year
      = ⟨.ok [], []⟩ := by
  subst hg; subst hk; subst hy
  rfl

/-- Witness for C2 at concrete arguments. -/
theorem discoverMedia_empty_guard_witness :
    discoverMedia (fun _ => .ok [⟨9, some "movie", some "p"⟩]) MediaType.tv
      [] [] 3 "rating" "en-US" none = ⟨.ok [], []⟩ :=
  discoverMedia_empty_guard _ _ _ _ _ _ _ _ rfl rfl rfl

/-- C5: if any individual transport call issued during a getKeywordIds
batch fails — that is, some phrase in the issued call list has a failing
oracle — the whole call returns an error and the keyword cache is exactly
the cache that was passed in: no pair from the failed batch is inserted. -/
theorem getKeywordIds_transport_failure
    (oracle : String → Except Unit (List Nat)) (keywords : List String)
    (cache : KWCache) (k : String) (e : Unit)
    (hk : k ∈ (getKeywordIds oracle keywords cache).calls)
    (he : oracle k = .error e) :
    (∃ e2, (getKeywordIds oracle keywords cache).result = .error e2) ∧
      (getKeywordIds oracle keywords cache).cache = cache := by
  by_cases hkw : keywords = []
  · simp [getKeywordIds, hkw] at hk
  · have hmem : k ∈ keywordsToFetchOf cache (uniqueKeywordsOf keywords) := by
      unfold getKeywordIds at hk
      rw [if_neg hkw] at hk
      cases haw : awaitAll oracle (keywordsToFetchOf cache (uniqueKeywordsOf keywords)) with
      | error e2 => rw [haw] at hk; exact hk
      | ok responses => rw [haw] at hk; exact hk
    obtain ⟨e2, h2⟩ := awaitAll_error_of_mem oracle _ k e hmem he
    unfold getKeywordIds
    rw [if_neg hkw, h2]
    exact ⟨⟨e2, rfl⟩, rfl⟩

/-- Witness for C5 at a concrete failing oracle. -/
theorem getKeywordIds_transport_failure_witness :
    (∃ e2, (getKeywordIds (fun _ => .error ()) ["time travel"] KWCache.empty).result
        = .error e2) ∧
      (getKeywordIds (fun _ => .error ()) ["time travel"] KWCache.empty).cache
        = KWCache.empty :=
  getKeywordIds_transport_failure (fun _ => .error ()) ["time travel"]
    KWCache.empty "time travel" () (by decide) rfl

/-- C7: the sort-option mapping of the discovery request builder is exactly
popularity to popularity.desc, rating to vote_average.desc, release_date to
primary_release_date.desc for movies and first_air_date.desc for tv, and
every other option string falls through to popularity.desc (the absent case
never reaches this mapping: the discoverMedia parameter defaults to
popularity at the source call boundary). -/
theorem getSortByValue_mapping :
    (∀ t, getSortByValue "popularity" t = "popularity.desc") ∧
    (∀ t, getSortByValue "rating" t = "vote_average.desc") ∧
    getSortByValue "release_date" MediaType.movie = "primary_release_date.desc" ∧
    getSortByValue "release_date" MediaType.tv = "first_air_date.desc" ∧
    (∀ s t, s ≠ "release_date" → s ≠ "rating" →
      getSortByValue s t = "popularity.desc") := by
  refine ⟨fun t => rfl, fun t => rfl, rfl, rfl, fun s t h1 h2 => ?_⟩
  unfold getSortByValue
  rw [if_neg h1, if_neg h2]

/-- Witness for C7 at a concrete unrecognized sort option. -/
theorem getSortByValue_mapping_witness :
    getSortByValue "alphabetical" MediaType.movie = "popularity.desc" :=
  getSortByValue_mapping.2.2.2.2 "alphabetical" MediaType.movie
    (by decide) (by decide)

/-- Helper: what passing the shared searchMedia/getTrending filter implies
about one result item. -/
theorem keepResult_spec (r : TMDbResult) (h : keepResult r = true) :
    (r.media_type = some "movie" ∨ r.media_type = some "tv") ∧
      r.poster_path ≠ none ∧ posterTruthy r.poster_path = true := by
  unfold keepResult at h
  rw [Bool.and_eq_true, Bool.or_eq_true] at h
  obtain ⟨hm, hp⟩ := h
  refine ⟨?_, ?_, hp⟩
  · rcases hm with hm | hm
    · exact Or.inl (of_decide_eq_true hm)
    · exact Or.inr (of_decide_eq_true hm)
  · intro hn
    rw [hn] at hp
    exact absurd hp (by simp [posterTruthy])

/-- C10: every item returned by searchMedia and by getTrending has
media_type movie or tv and a truthy (in particular, non-null) poster_path;
items of any other media type or without a poster are filtered out. -/
theorem searchMedia_getTrending_filtered
    (oracle : String → Except Unit (List TMDbResult))
    (query : String) (page : Nat) (language : String) :
    (∀ rs, searchMedia oracle query page language = .ok rs →
      ∀ r ∈ rs, (r.media_type = some "movie" ∨ r.media_type = some "tv") ∧
        r.poster_path ≠ none ∧ posterTruthy r.poster_path = true) ∧
    (∀ rs, getTrending oracle page language = .ok rs →
      ∀ r ∈ rs, (r.media_type = some "movie" ∨ r.media_type = some "tv") ∧
        r.poster_path ≠ none ∧ posterTruthy r.poster_path = true) := by
  constructor
  · intro rs hok r hr
    unfold searchMedia at hok
    by_cases hq : query = ""
    · rw [if_pos hq] at hok
      simp only [Except.ok.injEq] at hok
      subst hok
      simp at hr
    · rw [if_neg hq] at hok
      cases hdata : oracle ("search/multi?query=" ++ query ++ "&page="
          ++ toString page ++ "&include_adult=false&language=" ++ language) with
      | error e => rw [hdata] at hok; exact absurd hok (by simp)
      | ok data =>
        rw [hdata] at hok
        simp only [Except.ok.injEq] at hok
        subst hok
        exact keepResult_spec r (List.mem_filter.mp hr).2
  · intro rs hok r hr
    unfold getTrending at hok
    cases hdata : oracle ("trending/all/week?page=" ++ toString page
        ++ "&language=" ++ language) with
    | error e => rw [hdata] at hok; exact absurd hok (by simp)
    | ok data =>
      rw [hdata] at hok
      simp only [Except.ok.injEq] at hok
      subst hok
      exact keepResult_spec r (List.mem_filter.mp hr).2

/-- Witness for C10: a concrete response holding a movie with a poster, a
person item and a posterless tv item; the surviving movie item satisfies
the filtered-shape property. -/
theorem searchMedia_getTrending_filtered_witness :
    ((⟨1, some "movie", some "x.jpg"⟩ : TMDbResult).media_type = some "movie" ∨
      (⟨1, some "movie", some "x.jpg"⟩ : TMDbResult).media_type = some "tv") ∧
      (⟨1, some "movie", some "x.jpg"⟩ : TMDbResult).poster_path ≠ none ∧
      posterTruthy (⟨1, some "movie", some "x.jpg"⟩ : TMDbResult).poster_path = true :=
  (searchMedia_getTrending_filtered
      (fun _ => .ok [⟨1, some "movie", some "x.jpg"⟩, ⟨2, some "person", some "y.jpg"⟩,
        ⟨3, some "tv", none⟩]) "q" 1 "en-US").1
    [⟨1, some "movie", some "x.jpg"⟩] rfl ⟨1, some "movie", some "x.jpg"⟩ (by decide)

/-- C9: for every chat history, if the provider reply carries no content
(missing or empty content field), getChatResponseFromAI returns an error —
the single wrapped failure message the catch block throws — and never any
fallback text as a successful value. -/
theorem getChatResponseFromAI_empty_reply_error
    (oracle : List (String × String) → FetchOutcome) (history : List ChatMessage)
    (h : oracle (toProviderMessages history) = .reply none ∨
         oracle (toProviderMessages history) = .reply (some "")) :
    getChatResponseFromAI oracle history
      = .error "Failed to get chat response from AI." := by
  unfold getChatResponseFromAI
  rcases h with h | h <;> rw [h]
  rfl

/-- Witness for C9 at a concrete empty-content reply. -/
theorem getChatResponseFromAI_empty_reply_error_witness :
    getChatResponseFromAI (fun _ => FetchOutcome.reply none)
      [⟨ChatRole.user, "recommend a thriller"⟩]
      = .error "Failed to get chat response from AI." :=
  getChatResponseFromAI_empty_reply_error _ _ (Or.inl rfl)

/-- Helper: the genre filtering step depends on the input names only
through their normalized forms. -/
theorem genreIdsFromList_norm_congr (ns1 ns2 : List String)
    (hn : ns1.map normalizeKey = ns2.map normalizeKey) (gl : List Genre) :
    genreIdsFromList ns1 gl = genreIdsFromList ns2 gl := by
  unfold genreIdsFromList
  rw [hn]

/-- C8: keyword and genre lookup are invariant under case and surrounding
whitespace: input lists that agree after lower-casing and trimming produce
identical getKeywordIds and getGenreIds behavior — same result, same cache,
same network calls — hence inputs such as the strings Sci-Fi with trailing
blank, sci-fi, and SCI-FI with leading blank resolve to the same cache
entry and the same id. -/
theorem lookup_normalization_invariance
    (ks1 ks2 ns1 ns2 : List String)
    (hk : ks1.map normalizeKey = ks2.map normalizeKey)
    (hn : ns1.map normalizeKey = ns2.map normalizeKey) :
    (∀ oracle cache, getKeywordIds oracle ks1 cache = getKeywordIds oracle ks2 cache) ∧
    (∀ goracle t gcache,
      getGenreIds goracle ns1 t gcache = getGenreIds goracle ns2 t gcache) := by
  constructor
  · intro oracle cache
    by_cases h1 : ks1 = []
    · have h2 : ks2 = [] := by
        rw [h1] at hk
        simpa using hk.symm
      rw [h1, h2]
    · have h2 : ks2 ≠ [] := by
        intro hc
        rw [hc] at hk
        simp only [List.map_nil, List.map_eq_nil_iff] at hk
        exact h1 hk
      unfold getKeywordIds uniqueKeywordsOf
      rw [if_neg h1, if_neg h2, hk]
  · intro goracle t gcache
    by_cases h1 : ns1 = []
    · have h2 : ns2 = [] := by
        rw [h1] at hn
        simpa using hn.symm
      rw [h1, h2]
    · have h2 : ns2 ≠ [] := by
        intro hc
        rw [hc] at hn
        simp only [List.map_nil, List.map_eq_nil_iff] at hn
        exact h1 hn
      unfold getGenreIds
      rw [if_neg h1, if_neg h2]
      rcases getGenreList goracle t gcache with ⟨res, c2, calls⟩
      cases res with
      | error e => rfl
      | ok gl => simp only [genreIdsFromList_norm_congr ns1 ns2 hn gl]

/-- Witness for C8 at the concrete example strings from the spec. -/
theorem lookup_normalization_invariance_witness :
    getKeywordIds (fun _ => .ok [314]) ["Sci-Fi "] KWCache.empty
      = getKeywordIds (fun _ => .ok [314]) [" SCI-FI"] KWCache.empty :=
  (lookup_normalization_invariance ["Sci-Fi "] [" SCI-FI"] ["sci-fi"] ["sci-fi"]
    (by decide) rfl).1 _ _

/-- Helper: when the oracle answers every phrase with a non-empty id list,
the batch join succeeds and every fetched phrase appears among the keys of
the newly inserted pairs. -/
theorem newPairs_complete (oracle : String → Except Unit (List Nat))
    (hfull : ∀ k, ∃ id rest, oracle k = .ok (id :: rest)) :
    ∀ l : List String, ∃ rs, awaitAll oracle l = .ok rs ∧
      ∀ k ∈ l, k ∈ (newPairsOf l rs).map Prod.fst := by
  intro l
  induction l with
  | nil => exact ⟨[], rfl, by simp⟩
  | cons x xs ih =>
    obtain ⟨rs, hrs, hmem⟩ := ih
    obtain ⟨id, rest, hx⟩ := hfull x
    refine ⟨(id :: rest) :: rs, ?_, ?_⟩
    · rw [awaitAll, hx, hrs]
    · intro k hk
      unfold newPairsOf at hmem ⊢
      simp only [List.zip_cons_cons, List.filterMap_cons, List.head?_cons,
        Option.map_some, List.map_cons]
      rcases List.mem_cons.mp hk with h | h
      · subst h; exact List.mem_cons_self _ _
      · exact List.mem_cons_of_mem _ (hmem k h)

/-- C3 counterexample: with an upstream whose keyword search returns no
results, the first resolve call fetches the phrase but caches nothing, so a
second identical call issues a network call again — the claim that the
second call always issues zero network calls is false. -/
theorem getKeywordIds_second_call_refetches :
    (getKeywordIds (fun _ => .ok []) ["dream heist"]
        ((getKeywordIds (fun _ => .ok []) ["dream heist"] KWCache.empty).cache)).calls
      = ["dream heist"] ∧
    ¬ (getKeywordIds (fun _ => .ok []) ["dream heist"]
        ((getKeywordIds (fun _ => .ok []) ["dream heist"] KWCache.empty).cache)).calls
      = [] := by
  decide

/-- Helper: when every unique keyword is already cached, getKeywordIds
issues no network call. -/
theorem getKeywordIds_calls_nil_of_all_cached
    (oracle : String → Except Unit (List Nat)) (keywords : List String)
    (c1 : KWCache) (hkw : keywords ≠ [])
    (hempty : keywordsToFetchOf c1 (uniqueKeywordsOf keywords) = []) :
    (getKeywordIds oracle keywords c1).calls = [] := by
  unfold getKeywordIds
  rw [if_neg hkw, hempty]
  rfl

/-- C3 amended: calling getKeywordIds a second time with the same phrases
issues zero additional network calls, provided every phrase the first call
fetched was answered successfully with at least one match (phrases whose
search fails or returns no results are not cached and would be fetched
again). -/
theorem getKeywordIds_second_call_no_network
    (oracle : String → Except Unit (List Nat))
    (hfull : ∀ k, ∃ id rest, oracle k = .ok (id :: rest))
    (keywords : List String) (cache : KWCache) :
    (getKeywordIds oracle keywords
        ((getKeywordIds oracle keywords cache).cache)).calls = [] := by
  by_cases hkw : keywords = []
  · simp [getKeywordIds, hkw]
  · obtain ⟨rs, hrs, hcomp⟩ :=
      newPairs_complete oracle hfull (keywordsToFetchOf cache (uniqueKeywordsOf keywords))
    have hcache1 : (getKeywordIds oracle keywords cache).cache
        = insertPairs cache
            (newPairsOf (keywordsToFetchOf cache (uniqueKeywordsOf keywords)) rs) := by
      unfold getKeywordIds
      rw [if_neg hkw, hrs]
    have hall : ∀ k ∈ uniqueKeywordsOf keywords,
        (((getKeywordIds oracle keywords cache).cache) k).isSome := by
      intro k hkmem
      rw [hcache1]
      by_cases hc : (cache k).isSome
      · exact insertPairs_isSome_preserve _ _ _ hc
      · have hkf : k ∈ keywordsToFetchOf cache (uniqueKeywordsOf keywords) := by
          unfold keywordsToFetchOf
          refine List.mem_filter.mpr ⟨hkmem, ?_⟩
          rw [Option.isNone_iff_eq_none]
          cases hck : cache k with
          | none => rfl
          | some v => rw [hck] at hc; simp at hc
        exact insertPairs_isSome_of_mem _ _ _ (hcomp k hkf)
    have hempty : keywordsToFetchOf ((getKeywordIds oracle keywords cache).cache)
        (uniqueKeywordsOf keywords) = [] := by
      unfold keywordsToFetchOf
      rw [List.filter_eq_nil_iff]
      intro k hkmem
      have hs := hall k hkmem
      rw [Option.isSome_iff_exists] at hs
      obtain ⟨v, hv⟩ := hs
      simp [hv]
    exact getKeywordIds_calls_nil_of_all_cached oracle keywords _ hkw hempty

/-- Witness for C3 amended at a concrete always-matching oracle. -/
theorem getKeywordIds_second_call_no_network_witness :
    (getKeywordIds (fun _ => .ok [99]) ["heist"]
        ((getKeywordIds (fun _ => .ok [99]) ["heist"] KWCache.empty).cache)).calls = [] :=
  getKeywordIds_second_call_no_network (fun _ => .ok [99])
    (fun _ => ⟨99, [], rfl⟩) ["heist"] KWCache.empty

/-- C6: for every non-empty keyword phrase list, a successful getKeywordIds
call returns a duplicate-free list of ids whose length is at most the
number of distinct normalized input phrases, and every returned id comes
either from a cache hit on a normalized input phrase or from the head of a
non-empty upstream response — a phrase whose search returns no results
contributes nothing, and no null or zero placeholder is inserted. -/
theorem getKeywordIds_output_bounds
    (oracle : String → Except Unit (List Nat)) (keywords : List String)
    (cache : KWCache) (ids : List Nat)
    (hne : keywords ≠ [])
    (hok : (getKeywordIds oracle keywords cache).result = .ok ids) :
    ids.Nodup ∧
    ids.length ≤ (uniqueKeywordsOf keywords).length ∧
    ∀ i ∈ ids,
      (∃ k ∈ uniqueKeywordsOf keywords, cache k = some i) ∨
      (∃ k rest, oracle k = .ok (i :: rest)) := by
  unfold getKeywordIds at hok
  rw [if_neg hne] at hok
  cases haw : awaitAll oracle (keywordsToFetchOf cache (uniqueKeywordsOf keywords)) with
  | error e => rw [haw] at hok; exact absurd hok (by simp)
  | ok responses =>
    rw [haw] at hok
    simp only [Except.ok.injEq] at hok
    subst hok
    refine ⟨nodup_jsSetDedup _, ?_, ?_⟩
    · have h1 : (cachedIdsOf cache (uniqueKeywordsOf keywords)).length
          + (keywordsToFetchOf cache (uniqueKeywordsOf keywords)).length
          = (uniqueKeywordsOf keywords).length :=
        length_filterMap_add_filter_isNone (fun k => cache k) _
      have h2 : ((newPairsOf (keywordsToFetchOf cache (uniqueKeywordsOf keywords))
          responses).map (fun p => p.2)).length
          ≤ (keywordsToFetchOf cache (uniqueKeywordsOf keywords)).length := by
        rw [List.length_map]
        calc (newPairsOf (keywordsToFetchOf cache (uniqueKeywordsOf keywords))
            responses).length
            ≤ ((keywordsToFetchOf cache (uniqueKeywordsOf keywords)).zip
                responses).length := List.length_filterMap_le _ _
          _ ≤ (keywordsToFetchOf cache (uniqueKeywordsOf keywords)).length := by
            rw [List.length_zip]; exact Nat.min_le_left _ _
      calc (jsSetDedup (cachedIdsOf cache (uniqueKeywordsOf keywords)
          ++ (newPairsOf (keywordsToFetchOf cache (uniqueKeywordsOf keywords))
              responses).map (fun p => p.2))).length
          ≤ (cachedIdsOf cache (uniqueKeywordsOf keywords)
            ++ (newPairsOf (keywordsToFetchOf cache (uniqueKeywordsOf keywords))
                responses).map (fun p => p.2)).length := length_jsSetDedup_le _
        _ = (cachedIdsOf cache (uniqueKeywordsOf keywords)).length
            + ((newPairsOf (keywordsToFetchOf cache (uniqueKeywordsOf keywords))
                responses).map (fun p => p.2)).length := List.length_append _ _
        _ ≤ (uniqueKeywordsOf keywords).length := by omega
    · intro i hi
      rw [mem_jsSetDedup, List.mem_append] at hi
      rcases hi with hi | hi
      · left
        unfold cachedIdsOf at hi
        obtain ⟨k, hk, hck⟩ := List.mem_filterMap.mp hi
        exact ⟨k, hk, hck⟩
      · right
        rw [List.mem_map] at hi
        obtain ⟨p, hp, hpi⟩ := hi
        unfold newPairsOf at hp
        obtain ⟨q, hq, hqp⟩ := List.mem_filterMap.mp hp
        obtain ⟨a, hha, hpa⟩ := Option.map_eq_some'.mp hqp
        have hai : a = i := by rw [← hpa] at hpi; exact hpi
        subst hai
        cases hql : q.2 with
        | nil => rw [hql] at hha; exact absurd hha (by simp)
        | cons b bs =>
          rw [hql] at hha
          simp only [List.head?_cons, Option.some.injEq] at hha
          subst hha
          have horacle := awaitAll_ok_oracle oracle _ _ haw q hq
          rw [hql] at horacle
          exact ⟨q.1, bs, horacle⟩

/-- Witness for C6: three phrases normalizing to two distinct keys, one of
which has no upstream match; the output is the single id 7. -/
theorem getKeywordIds_output_bounds_witness :
    ([7] : List Nat).Nodup ∧
    ([7] : List Nat).length ≤ (uniqueKeywordsOf ["A ", "a", "b"]).length ∧
    ∀ i ∈ ([7] : List Nat),
      (∃ k ∈ uniqueKeywordsOf ["A ", "a", "b"], KWCache.empty k = some i) ∨
      (∃ k rest, (if k = "b" then (Except.ok [] : Except Unit (List Nat))
            else Except.ok [7, 8])
          = Except.ok (i :: rest)) :=
  getKeywordIds_output_bounds
    (fun s => if s = "b" then (Except.ok [] : Except Unit (List Nat))
      else Except.ok [7, 8])
    ["A ", "a", "b"] KWCache.empty [7] (by decide) rfl

/-- Helper: reading a category after writing it. -/
theorem GenreCache.get_put_self (c : GenreCache) (t : MediaType) (gs : List Genre) :
    (c.put t gs).get t = gs := by
  cases t <;> rfl

/-- Helper: reading another category after a write. -/
theorem GenreCache.get_put_ne (c : GenreCache) (t u : MediaType) (gs : List Genre)
    (h : u ≠ t) : (c.put t gs).get u = c.get u := by
  cases t <;> cases u <;> first | rfl | exact absurd rfl h

/-- Helper: getGenreList on a non-empty cached list is a pure cache hit. -/
theorem getGenreList_hit (oracle : MediaType → Except Unit (List Genre))
    (t : MediaType) (cache : GenreCache) (h : (cache.get t).length > 0) :
    getGenreList oracle t cache = ⟨.ok (cache.get t), cache, []⟩ := by
  unfold getGenreList
  rw [if_pos h]

/-- Helper: getGenreList on a miss with a successful fetch stores the list. -/
theorem getGenreList_miss_ok (oracle : MediaType → Except Unit (List Genre))
    (t : MediaType) (cache : GenreCache) (gs : List Genre)
    (h : ¬ (cache.get t).length > 0) (ho : oracle t = .ok gs) :
    getGenreList oracle t cache = ⟨.ok gs, cache.put t gs, [t]⟩ := by
  unfold getGenreList
  rw [if_neg h, ho]

/-- Helper: getGenreList on a miss with a failing fetch leaves the cache. -/
theorem getGenreList_miss_error (oracle : MediaType → Except Unit (List Genre))
    (t : MediaType) (cache : GenreCache) (e : Unit)
    (h : ¬ (cache.get t).length > 0) (ho : oracle t = .error e) :
    getGenreList oracle t cache = ⟨.error e, cache, [t]⟩ := by
  unfold getGenreList
  rw [if_neg h, ho]

/-- Helper: getGenreIds on an empty name list. -/
theorem getGenreIds_empty (oracle : MediaType → Except Unit (List Genre))
    (t : MediaType) (cache : GenreCache) :
    getGenreIds oracle [] t cache = ⟨.ok [], cache, []⟩ := by
  unfold getGenreIds
  rw [if_pos rfl]

/-- Helper: getGenreIds served from the cache. -/
theorem getGenreIds_hit (oracle : MediaType → Except Unit (List Genre))
    (names : List String) (t : MediaType) (cache : GenreCache)
    (hn : names ≠ []) (h : (cache.get t).length > 0) :
    getGenreIds oracle names t cache
      = ⟨.ok (genreIdsFromList names (cache.get t)), cache, []⟩ := by
  unfold getGenreIds
  rw [if_neg hn, getGenreList_hit oracle t cache h]

/-- Helper: getGenreIds fetching the list successfully. -/
theorem getGenreIds_miss_ok (oracle : MediaType → Except Unit (List Genre))
    (names : List String) (t : MediaType) (cache : GenreCache) (gs : List Genre)
    (hn : names ≠ []) (h : ¬ (cache.get t).length > 0) (ho : oracle t = .ok gs) :
    getGenreIds oracle names t cache
      = ⟨.ok (genreIdsFromList names gs), cache.put t gs, [t]⟩ := by
  unfold getGenreIds
  rw [if_neg hn, getGenreList_miss_ok oracle t cache gs h ho]

/-- Helper: getGenreIds with a failing fetch propagates the error. -/
theorem getGenreIds_miss_error (oracle : MediaType → Except Unit (List Genre))
    (names : List String) (t : MediaType) (cache : GenreCache) (e : Unit)
    (hn : names ≠ []) (h : ¬ (cache.get t).length > 0) (ho : oracle t = .error e) :
    getGenreIds oracle names t cache = ⟨.error e, cache, [t]⟩ := by
  unfold getGenreIds
  rw [if_neg hn, getGenreList_miss_error oracle t cache e h ho]

/-- Helper: one getGenreIds call issues at most one genre-list call for a
category, and none when that category is already cached non-empty. -/
theorem getGenreIds_calls_bound (oracle : MediaType → Except Unit (List Genre))
    (names : List String) (t : MediaType) (cache : GenreCache) (c : MediaType) :
    ((getGenreIds oracle names t cache).calls.count c)
      ≤ if (cache.get c).length = 0 then 1 else 0 := by
  by_cases hn : names = []
  · subst hn
    rw [getGenreIds_empty]
    simp only [List.count_nil]
    exact Nat.zero_le _
  · by_cases hc : (cache.get t).length > 0
    · rw [getGenreIds_hit oracle names t cache hn hc]
      simp only [List.count_nil]
      exact Nat.zero_le _
    · have hcount : (List.count c [t]) ≤ if (cache.get c).length = 0 then 1 else 0 := by
        by_cases hct : c = t
        · subst hct
          have h0 : (cache.get c).length = 0 := Nat.eq_zero_of_not_pos hc
          rw [if_pos h0]
          simp [List.count_cons]
        · have : List.count c [t] = 0 := by
            simp [List.count_cons, hct]
          rw [this]
          exact Nat.zero_le _
      cases ho : oracle t with
      | error e =>
        rw [getGenreIds_miss_error oracle names t cache e hn hc ho]
        exact hcount
      | ok gs =>
        rw [getGenreIds_miss_ok oracle names t cache gs hn hc ho]
        exact hcount

/-- Helper: with an upstream always returning a non-empty genre list, if a
category is still uncached after a getGenreIds call, it was uncached before
and the call issued no genre-list call for it. -/
theorem getGenreIds_cache_step (oracle : MediaType → Except Unit (List Genre))
    (names : List String) (t : MediaType) (cache : GenreCache) (c : MediaType)
    (hgood : ∀ u, ∃ gs, oracle u = .ok gs ∧ gs ≠ []) :
    ((getGenreIds oracle names t cache).cache.get c).length = 0 →
      (cache.get c).length = 0 ∧
        (getGenreIds oracle names t cache).calls.count c = 0 := by
  intro h0
  by_cases hn : names = []
  · subst hn
    rw [getGenreIds_empty] at h0 ⊢
    exact ⟨h0, by simp⟩
  · by_cases hc : (cache.get t).length > 0
    · rw [getGenreIds_hit oracle names t cache hn hc] at h0 ⊢
      exact ⟨h0, by simp⟩
    · obtain ⟨gs, ho, hgs⟩ := hgood t
      rw [getGenreIds_miss_ok oracle names t cache gs hn hc ho] at h0 ⊢
      by_cases hct : c = t
      · subst hct
        rw [GenreCache.get_put_self] at h0
        exact absurd (List.length_eq_zero.mp h0) hgs
      · rw [GenreCache.get_put_ne cache t c gs hct] at h0
        refine ⟨h0, ?_⟩
        simp [List.count_cons, hct]

/-- Helper: per-category bound on the genre-list calls of a whole run. -/
theorem genre_calls_bound (oracle : MediaType → Except Unit (List Genre))
    (hgood : ∀ u, ∃ gs, oracle u = .ok gs ∧ gs ≠ []) (c : MediaType) :
    ∀ (queries : List (List String × MediaType)) (cache : GenreCache),
      ((runGenreQueries oracle queries cache).2.count c)
        ≤ if (cache.get c).length = 0 then 1 else 0 := by
  intro queries
  induction queries with
  | nil =>
    intro cache
    rw [runGenreQueries]
    simp only [List.count_nil]
    exact Nat.zero_le _
  | cons q qs ih =>
    intro cache
    rw [runGenreQueries]
    simp only [List.count_append]
    have h1 := getGenreIds_calls_bound oracle q.1 q.2 cache c
    have h3 := ih (getGenreIds oracle q.1 q.2 cache).cache
    by_cases hc2 : ((getGenreIds oracle q.1 q.2 cache).cache.get c).length = 0
    · obtain ⟨hc0, hcnt⟩ := getGenreIds_cache_step oracle q.1 q.2 cache c hgood hc2
      rw [if_pos hc2] at h3
      rw [if_pos hc0]
      omega
    · rw [if_neg hc2] at h3
      by_cases hc : (cache.get c).length = 0
      · rw [if_pos hc]
        rw [if_pos hc] at h1
        omega
      · rw [if_neg hc]
        rw [if_neg hc] at h1
        omega

/-- C4 counterexample: with an upstream whose genre-list endpoint returns
an empty list, both of two successive queries for the movie category fetch
the list over the network — the stored empty list never satisfies the
length guard, so the claim of at most one genre-list call per category is
false as stated. -/
theorem genre_two_calls_counterexample :
    ((runGenreQueries (fun _ => .ok []) [(["action"], MediaType.movie),
        (["action"], MediaType.movie)] ⟨[], []⟩).2.count MediaType.movie = 2) ∧
    ¬ ((runGenreQueries (fun _ => .ok []) [(["action"], MediaType.movie),
        (["action"], MediaType.movie)] ⟨[], []⟩).2.count MediaType.movie ≤ 1) := by
  decide

/-- C4 amended: across any sequence of genre queries from any starting
cache, at most one genre-list network call is issued per media category,
provided every genre-list fetch succeeds with a non-empty genre list (a
fetch that fails, or stores an empty list, is retried on a later query). -/
theorem genre_calls_at_most_one_per_category
    (oracle : MediaType → Except Unit (List Genre))
    (hgood : ∀ u, ∃ gs, oracle u = .ok gs ∧ gs ≠ [])
    (queries : List (List String × MediaType)) (cache : GenreCache)
    (c : MediaType) :
    ((runGenreQueries oracle queries cache).2.count c) ≤ 1 := by
  have h := genre_calls_bound oracle hgood c queries cache
  by_cases hc : (cache.get c).length = 0
  · rw [if_pos hc] at h
    exact h
  · rw [if_neg hc] at h
    omega

/-- Witness for C4 amended: two movie queries against a well-behaved
upstream issue at most one movie genre-list call. -/
theorem genre_calls_at_most_one_per_category_witness :
    ((runGenreQueries (fun _ => .ok [⟨28, "action"⟩]) [(["Action"], MediaType.movie),
        (["action "], MediaType.movie)] ⟨[], []⟩).2.count MediaType.movie) ≤ 1 :=
  genre_calls_at_most_one_per_category (fun _ => .ok [⟨28, "action"⟩])
    (fun _ => ⟨[⟨28, "action"⟩], rfl, List.cons_ne_nil _ _⟩) _ _ _

end CineSuggest
